import Mathlib

/-
Verification of the beacon-go query core: the allele query record, its
validation rules (ValidateInput / validateCoordinates) and the translation
of a validated query into a BigQuery WHERE clause (whereClause /
bqCoordinatesToWhereClause), together with the legacy single-coordinate
WHERE clause of the historical genomeExists handler.

Machine integers (Go int64) are modelled as Int: no arithmetic here can
overflow at the values involved.  Go errors are modelled as Option String
holding the exact error message; nil error is none.  The single quote
character used by the SQL fragments is built from its code point so that
the rendered clauses can be stated and compared literally.
-/

/-- The single quote character, as a one-character string (code point 39). -/
def quo : String := String.singleton (Char.ofNat 39)

/-- Whether a character is one of A, C, G, T: the character class of the
source regex `[ACGT]`. -/
def isACGT (c : Char) : Bool := c == 'A' || c == 'C' || c == 'G' || c == 'T'

/-- A regular expression over characters: single character, alternation,
concatenation and one-or-more repetition — the constructs appearing in the
source pattern `^([ACGT]+|N)$`. -/
inductive Re : Type where
  | chr : Char → Re
  | alt : Re → Re → Re
  | cat : Re → Re → Re
  | plus : Re → Re

/-- Anchored regular-expression matching: `ReMatches r l` holds when the
whole character list `l` is matched by `r`. -/
inductive ReMatches : Re → List Char → Prop where
  | chr (c : Char) : ReMatches (Re.chr c) [c]
  | altL {a b : Re} {s : List Char} : ReMatches a s → ReMatches (Re.alt a b) s
  | altR {a b : Re} {s : List Char} : ReMatches b s → ReMatches (Re.alt a b) s
  | cat {a b : Re} {s t : List Char} :
      ReMatches a s → ReMatches b t → ReMatches (Re.cat a b) (s ++ t)
  | plusOne {a : Re} {s : List Char} : ReMatches a s → ReMatches (Re.plus a) s
  | plusMore {a : Re} {s t : List Char} :
      ReMatches a s → ReMatches (Re.plus a) t → ReMatches (Re.plus a) (s ++ t)

/-- The character class `[ACGT]` as an alternation of its four characters. -/
def acgtRe : Re := Re.alt (Re.chr 'A') (Re.alt (Re.chr 'C') (Re.alt (Re.chr 'G') (Re.chr 'T')))

/-- The anchored source pattern `^([ACGT]+|N)$` (basesRegex). -/
def basesRe : Re := Re.alt (Re.plus acgtRe) (Re.chr 'N')

/-- Executable form of `basesRegex.MatchString`: the whole string is one or
more of A, C, G, T, or the string is exactly "N".  Proved equivalent to
anchored matching of `basesRe` below. -/
def basesRegexMatch (s : String) : Bool :=
  (!s.data.isEmpty && s.data.all isACGT) || s == "N"

/-- The Query record of the source: three allele strings and six nullable
int64 coordinate fields (`*int64` becomes `Option Int`, none = nil). -/
structure Query : Type where
  ReferenceName : String
  ReferenceBases : String
  AlternateBases : String
  Start : Option Int
  End : Option Int
  StartMin : Option Int
  StartMax : Option Int
  EndMin : Option Int
  EndMax : Option Int

/-- The `precisePosition` flag of validateCoordinates:
`q.Start != nil && (q.End != nil || q.ReferenceBases != "")`. -/
def precisePosition (q : Query) : Bool :=
  q.Start.isSome && (q.End.isSome || q.ReferenceBases != "")

/-- The `imprecisePosition` flag of validateCoordinates:
all four of StartMin, StartMax, EndMin, EndMax are non-nil. -/
def imprecisePosition (q : Query) : Bool :=
  q.StartMin.isSome && q.StartMax.isSome && q.EndMin.isSome && q.EndMax.isSome

/-- validateCoordinates: reject when both position modes hold, accept when
exactly one holds, otherwise reject when `Start != nil && End != nil` or any
of the four imprecise fields is non-nil, and accept the rest. -/
def validateCoordinates (q : Query) : Option String :=
  if precisePosition q && imprecisePosition q then
    some "please query either precise or imprecise position"
  else if precisePosition q || imprecisePosition q then
    none
  else if (q.Start.isSome && q.End.isSome) || q.StartMin.isSome || q.StartMax.isSome
      || q.EndMin.isSome || q.EndMax.isSome then
    some "restrictions not met for provided coordinates"
  else
    none

/-- ValidateInput: reference name non-empty, reference bases non-empty and
matching basesRegex, alternate bases matching basesRegex when non-empty,
then the coordinate rules (whose error is wrapped with the
"validating coordinates: " context, as fmt.Errorf does). -/
def ValidateInput (q : Query) : Option String :=
  if q.ReferenceName == "" then some "missing reference name"
  else if q.ReferenceBases == "" then some "missing reference bases"
  else if !basesRegexMatch q.ReferenceBases then some "invalid value for reference bases"
  else if q.AlternateBases != "" && !basesRegexMatch q.AlternateBases then
    some "invalid value for alternate bases"
  else
    match validateCoordinates q with
    | some e => some ("validating coordinates: " ++ e)
    | none => none

/-- bqCoordinatesToWhereClause as the list of coordinate clauses it adds:
when Start is non-nil one precise clause (with End when End is non-nil),
and, independently, when all four imprecise fields are non-nil one range
clause. -/
def bqCoordinatesToWhereClause (q : Query) : List String :=
  (match q.Start, q.End with
   | some s, some e => ["v.start = " ++ toString s ++ " AND " ++ toString e ++ " = v.end"]
   | some s, none => ["v.start = " ++ toString s]
   | none, _ => [])
  ++
  (match q.StartMin, q.StartMax, q.EndMin, q.EndMax with
   | some a, some b, some c, some d =>
     [toString a ++ " <= v.start AND v.start <= " ++ toString b ++ " AND "
       ++ toString c ++ " <= v.end AND v.end <= " ++ toString d]
   | _, _, _, _ => [])

/-- whereClause as the ordered list of clauses it appends: reference_name
equality when non-empty, reference_bases equality when non-empty, the
UNNEST membership clause when AlternateBases is non-empty, then the
coordinate clauses. -/
def whereClauseList (q : Query) : List String :=
  (if q.ReferenceName != "" then
    ["reference_name=" ++ quo ++ q.ReferenceName ++ quo] else [])
  ++ (if q.ReferenceBases != "" then
    ["reference_bases=" ++ quo ++ q.ReferenceBases ++ quo] else [])
  ++ (if q.AlternateBases != "" then
    ["(SELECT count(*) FROM UNNEST(alternate_bases) AS alt WHERE alt IN ("
      ++ quo ++ q.AlternateBases ++ quo ++ ") ) > 0"] else [])
  ++ bqCoordinatesToWhereClause q

/-- The rendered WHERE clause: the clauses joined with " AND ". -/
def whereClause (q : Query) : String :=
  String.intercalate " AND " (whereClauseList q)

/-- The WHERE clause interpolated by the legacy genomeExists handler for a
single-coordinate query: reference_name equality, the coordinate window
`v.start <= coord AND coord+1 < v.end`, and reference_bases equality. -/
def genomeExistsWhere (refName allele : String) (coord : Int) : String :=
  "reference_name=" ++ quo ++ refName ++ quo
    ++ " AND v.start <= " ++ toString coord
    ++ " AND " ++ toString (coord + 1) ++ " < v.end"
    ++ " AND reference_bases=" ++ quo ++ allele ++ quo

/-- Row-level meaning of the legacy coordinate window on a row with columns
start = s, end = e: `s <= coord AND coord + 1 < e`, exactly the comparison
the legacy handler interpolates. -/
def legacyCoordPred (coord s e : Int) : Prop := s ≤ coord ∧ coord + 1 < e

instance (coord s e : Int) : Decidable (legacyCoordPred coord s e) :=
  inferInstanceAs (Decidable (s ≤ coord ∧ coord + 1 < e))

/-- Half-open containment of the query point as the spec words it:
`start_column <= coordinate AND coordinate < end_column`.  Stated only to
be compared with `legacyCoordPred`. -/
def specCoordContainment (coord s e : Int) : Prop := s ≤ coord ∧ coord < e

instance (coord s e : Int) : Decidable (specCoordContainment coord s e) :=
  inferInstanceAs (Decidable (s ≤ coord ∧ coord < e))

/-- Scenario A of the spec: a fully specified precise query. -/
def scenarioA : Query := ⟨"1", "A", "G", some 100, some 101, none, none, none, none⟩

/-- Scenario B of the spec: start set, reference bases non-empty, and the
full imprecise quadruple set. -/
def scenarioB : Query := ⟨"2", "N", "", some 50, none, some 10, some 20, some 30, some 40⟩

/-- Scenario C of the spec: lowercase alternate bases. -/
def scenarioC : Query := ⟨"3", "ACGT", "act", none, none, none, none, none, none⟩

/-- Scenario E of the spec: no coordinates and no alternate bases. -/
def scenarioE : Query := ⟨"1", "A", "", none, none, none, none, none, none⟩

/-- A precise query carrying one stray imprecise field: start = 0 with
non-empty reference bases, plus startMin = 5 alone. -/
def strayImpreciseQuery : Query := ⟨"1", "A", "", some 0, none, some 5, none, none, none⟩

/-- The class regex `[ACGT]` matches exactly the one-character lists whose
character satisfies `isACGT`. -/
theorem acgtRe_iff (s : List Char) :
    ReMatches acgtRe s ↔ ∃ c, s = [c] ∧ isACGT c = true := by
  constructor
  · intro h
    simp only [acgtRe] at h
    cases h with
    | altL h1 => cases h1; exact ⟨'A', rfl, by decide⟩
    | altR h1 =>
      cases h1 with
      | altL h2 => cases h2; exact ⟨'C', rfl, by decide⟩
      | altR h2 =>
        cases h2 with
        | altL h3 => cases h3; exact ⟨'G', rfl, by decide⟩
        | altR h3 => cases h3; exact ⟨'T', rfl, by decide⟩
  · rintro ⟨c, rfl, hc⟩
    have hc4 : ((c = 'A' ∨ c = 'C') ∨ c = 'G') ∨ c = 'T' := by
      simpa [isACGT] using hc
    rw [or_assoc, or_assoc] at hc4
    rcases hc4 with rfl | rfl | rfl | rfl
    · exact ReMatches.altL (ReMatches.chr _)
    · exact ReMatches.altR (ReMatches.altL (ReMatches.chr _))
    · exact ReMatches.altR (ReMatches.altR (ReMatches.altL (ReMatches.chr _)))
    · exact ReMatches.altR (ReMatches.altR (ReMatches.altR (ReMatches.chr _)))

/-- A list matched by `[ACGT]+` is non-empty and all its characters are
A, C, G or T. -/
theorem plus_acgt_sound {r : Re} {s : List Char} (h : ReMatches r s) :
    r = Re.plus acgtRe → s ≠ [] ∧ s.all isACGT = true := by
  induction h with
  | chr c => intro he; simp at he
  | altL h1 ih => intro he; simp at he
  | altR h1 ih => intro he; simp at he
  | cat h1 h2 ih1 ih2 => intro he; simp at he
  | plusOne h1 ih =>
    intro he
    injection he with ha
    subst ha
    obtain ⟨c, rfl, hc⟩ := (acgtRe_iff _).1 h1
    exact ⟨by simp, by simp [hc]⟩
  | plusMore h1 h2 ih1 ih2 =>
    intro he
    injection he with ha
    subst ha
    obtain ⟨c, rfl, hc⟩ := (acgtRe_iff _).1 h1
    obtain ⟨hne, hall⟩ := ih2 rfl
    exact ⟨by simp, by simp [hc, hall]⟩

/-- Every non-empty list of A, C, G, T characters is matched by `[ACGT]+`. -/
theorem plus_acgt_complete (s : List Char) (hne : s ≠ []) (hall : s.all isACGT = true) :
    ReMatches (Re.plus acgtRe) s := by
  induction s with
  | nil => exact absurd rfl hne
  | cons c rest ih =>
    rw [List.all_cons, Bool.and_eq_true] at hall
    cases rest with
    | nil => exact ReMatches.plusOne ((acgtRe_iff [c]).2 ⟨c, rfl, hall.1⟩)
    | cons d t =>
      exact ReMatches.plusMore ((acgtRe_iff [c]).2 ⟨c, rfl, hall.1⟩)
        (ih (by simp) hall.2)

/-- Anchored matching of the source pattern `^([ACGT]+|N)$` characterised:
a non-empty all-ACGT list, or exactly the list of the one character N. -/
theorem basesRe_iff (s : List Char) :
    ReMatches basesRe s ↔ ((s ≠ [] ∧ s.all isACGT = true) ∨ s = [ 'N' ]) := by
  constructor
  · intro h
    simp only [basesRe] at h
    cases h with
    | altL h1 => exact Or.inl (plus_acgt_sound h1 rfl)
    | altR h1 => cases h1; exact Or.inr rfl
  · rintro (⟨hne, hall⟩ | rfl)
    · exact ReMatches.altL (plus_acgt_complete s hne hall)
    · exact ReMatches.altR (ReMatches.chr _)

/-- The executable matcher used by ValidateInput agrees with anchored
matching of the source regex on every string. -/
theorem basesRegexMatch_iff (s : String) :
    basesRegexMatch s = true ↔ ReMatches basesRe s.data := by
  rw [basesRe_iff]
  simp only [basesRegexMatch, Bool.or_eq_true, Bool.and_eq_true, Bool.not_eq_true',
    List.isEmpty_eq_false, beq_iff_eq]
  constructor
  · rintro (⟨hne, hall⟩ | rfl)
    · exact Or.inl ⟨hne, hall⟩
    · exact Or.inr rfl
  · rintro (⟨hne, hall⟩ | hd)
    · exact Or.inl ⟨hne, hall⟩
    · exact Or.inr (String.ext hd)

/-- Claim C1: the legacy single-point WHERE clause interpolates the window
`v.start <= coord AND coord+1 < v.end`, not the half-open containment
`start <= coord AND coord < end` the spec states: at coordinate 99 a row
with start = 99 and end = 100 fails the interpolated window (100 < 100 is
false) although half-open containment holds there, and a row with
start = 100 and end = 101 fails both. -/
theorem c1_legacy_window_off_by_one :
    ¬ legacyCoordPred 99 99 100 ∧ specCoordContainment 99 99 100
    ∧ ¬ legacyCoordPred 99 100 101 ∧ ¬ specCoordContainment 99 100 101
    ∧ genomeExistsWhere "1" "A" 99
      = "reference_name=" ++ quo ++ "1" ++ quo
        ++ " AND v.start <= 99 AND 100 < v.end AND reference_bases=" ++ quo ++ "A" ++ quo :=
  ⟨by decide, by decide, by decide, by decide, rfl⟩

/-- Claim C3: whenever the precise mode fully holds (Start set, and End set
or ReferenceBases non-empty) and all four imprecise fields are set,
validateCoordinates returns the conflicting-modes error; in particular
Scenario B is rejected by ValidateInput with exactly that error. -/
theorem c3_conflicting_modes :
    (∀ q : Query, q.Start.isSome = true →
      (q.End.isSome = true ∨ q.ReferenceBases ≠ "") →
      q.StartMin.isSome = true → q.StartMax.isSome = true →
      q.EndMin.isSome = true → q.EndMax.isSome = true →
      validateCoordinates q = some "please query either precise or imprecise position")
    ∧ ValidateInput scenarioB
      = some "validating coordinates: please query either precise or imprecise position" := by
  constructor
  · intro q hs hpre h1 h2 h3 h4
    have hp : precisePosition q = true := by
      rcases hpre with h | h
      · simp [precisePosition, hs, h]
      · simp [precisePosition, hs, h]
    have hi : imprecisePosition q = true := by
      simp [imprecisePosition, h1, h2, h3, h4]
    simp [validateCoordinates, hp, hi]
  · rfl

/-- Claim C6: a query with empty reference name always fails ValidateInput
with the missing-reference-name error, whatever the other fields hold:
the reference-name rule is checked first and its failure is returned. -/
theorem c6_missing_reference_name (q : Query) (h : q.ReferenceName = "") :
    ValidateInput q = some "missing reference name" := by
  simp [ValidateInput, h]

/-- Witness for C6: a query with empty reference name whose other fields
would each violate a later rule still gets the missing-reference-name
error. -/
theorem c6_missing_reference_name_witness :
    ValidateInput ⟨"", "act", "??", some 1, some 2, some 3, none, none, none⟩
      = some "missing reference name" :=
  c6_missing_reference_name ⟨"", "act", "??", some 1, some 2, some 3, none, none, none⟩ rfl

/-- Claim C4: Scenario A passes ValidateInput and its WHERE clause is the
conjunction reference_name equality, reference_bases equality, the
alternate-bases membership constraint, and the start/end equality
constraint, in exactly that order. -/
theorem c4_scenarioA_predicate :
    ValidateInput scenarioA = none
    ∧ whereClauseList scenarioA =
      ["reference_name=" ++ quo ++ "1" ++ quo,
       "reference_bases=" ++ quo ++ "A" ++ quo,
       "(SELECT count(*) FROM UNNEST(alternate_bases) AS alt WHERE alt IN ("
         ++ quo ++ "G" ++ quo ++ ") ) > 0",
       "v.start = 100 AND 101 = v.end"]
    ∧ whereClause scenarioA =
      "reference_name=" ++ quo ++ "1" ++ quo
        ++ " AND reference_bases=" ++ quo ++ "A" ++ quo
        ++ " AND (SELECT count(*) FROM UNNEST(alternate_bases) AS alt WHERE alt IN ("
        ++ quo ++ "G" ++ quo ++ ") ) > 0 AND v.start = 100 AND 101 = v.end" :=
  ⟨rfl, rfl, rfl⟩

/-- Claim C5: the executable matcher agrees with anchored matching of the
source regex on every string, that matching accepts exactly the non-empty
all-ACGT lists plus the single character N, and Scenario C (lowercase
alternate bases) is rejected by ValidateInput with the
invalid-alternate-bases error; concrete accept and reject cases included. -/
theorem c5_allele_syntax :
    (∀ l : List Char, ReMatches basesRe l ↔ ((l ≠ [] ∧ l.all isACGT = true) ∨ l = [ 'N' ]))
    ∧ (∀ s : String, basesRegexMatch s = true ↔ ReMatches basesRe s.data)
    ∧ ValidateInput scenarioC = some "invalid value for alternate bases"
    ∧ basesRegexMatch "ACGT" = true ∧ basesRegexMatch "N" = true
    ∧ basesRegexMatch "act" = false ∧ basesRegexMatch "NA" = false
    ∧ basesRegexMatch "AN" = false ∧ basesRegexMatch "" = false :=
  ⟨basesRe_iff, fun s => basesRegexMatch_iff s, rfl, rfl, rfl, rfl, rfl, rfl, rfl⟩

/-- Counterexample to claim C2 as stated: a query with exactly one of the
four imprecise fields set (StartMin alone) in which Start is also set and
ReferenceBases is non-empty passes ValidateInput with no error at all,
because the precise condition already holds. -/
theorem c2_counterexample_stray_imprecise :
    strayImpreciseQuery.StartMin.isSome = true
    ∧ strayImpreciseQuery.StartMax = none
    ∧ strayImpreciseQuery.EndMin = none
    ∧ strayImpreciseQuery.EndMax = none
    ∧ strayImpreciseQuery.Start.isSome = true
    ∧ ValidateInput strayImpreciseQuery = none :=
  ⟨rfl, rfl, rfl, rfl, rfl, rfl⟩

/-- Claim C2 as amended: a query with exactly one of the four imprecise
fields set is rejected by validateCoordinates with the
incomplete-coordinate-specification error provided the precise condition
does not hold (Start unset, or End unset with empty ReferenceBases);
when the precise condition holds the stray field is ignored instead. -/
theorem c2_single_imprecise_rejected (q : Query)
    (hone : q.StartMin.isSome.toNat + q.StartMax.isSome.toNat
      + q.EndMin.isSome.toNat + q.EndMax.isSome.toNat = 1)
    (hnp : q.Start = none ∨ (q.End = none ∧ q.ReferenceBases = "")) :
    validateCoordinates q = some "restrictions not met for provided coordinates" := by
  have hpre : precisePosition q = false := by
    rcases hnp with h | ⟨h1, h2⟩
    · simp [precisePosition, h]
    · simp [precisePosition, h1, h2]
  rcases hsm : q.StartMin with _ | a <;> rcases hsx : q.StartMax with _ | b <;>
    rcases hem : q.EndMin with _ | c <;> rcases hex : q.EndMax with _ | d <;>
    simp [hsm, hsx, hem, hex] at hone <;>
    simp [validateCoordinates, imprecisePosition, hsm, hsx, hem, hex, hpre]

/-- Witness for the amended C2: startMin alone, with Start unset, draws the
incomplete-coordinate-specification error. -/
theorem c2_single_imprecise_rejected_witness :
    validateCoordinates ⟨"", "", "", none, none, some 5, none, none, none⟩
      = some "restrictions not met for provided coordinates" :=
  c2_single_imprecise_rejected ⟨"", "", "", none, none, some 5, none, none, none⟩
    (by decide) (Or.inl rfl)

/-- Claim C7: a query that passes ValidateInput with empty AlternateBases
and every coordinate field unset renders exactly the reference-name and
reference-bases equality clauses — no coordinate clause, no alternate-bases
clause, and nothing else. -/
theorem c7_unconstrained_omits_clauses (q : Query)
    (hv : ValidateInput q = none) (ha : q.AlternateBases = "")
    (h1 : q.Start = none) (h2 : q.End = none) (h3 : q.StartMin = none)
    (h4 : q.StartMax = none) (h5 : q.EndMin = none) (h6 : q.EndMax = none) :
    whereClauseList q
      = ["reference_name=" ++ quo ++ q.ReferenceName ++ quo,
         "reference_bases=" ++ quo ++ q.ReferenceBases ++ quo] := by
  have hn : ¬ q.ReferenceName = "" := by
    intro h
    simp [ValidateInput, h] at hv
  have hb : ¬ q.ReferenceBases = "" := by
    intro h
    simp [ValidateInput, hn, h] at hv
  simp [whereClauseList, bqCoordinatesToWhereClause, ha, h1, h2, h3, h4, h5, h6, hn, hb]

/-- Witness for C7: Scenario E renders exactly the two equality clauses. -/
theorem c7_unconstrained_omits_clauses_witness :
    whereClauseList scenarioE
      = ["reference_name=" ++ quo ++ "1" ++ quo,
         "reference_bases=" ++ quo ++ "A" ++ quo] :=
  c7_unconstrained_omits_clauses scenarioE rfl rfl rfl rfl rfl rfl rfl rfl

/-- Claim C8: validation and clause building are functions of the query's
field values alone — two queries agreeing on every field validate
identically and render identical clause lists and identical WHERE strings,
so building twice from the same query yields the same predicate. -/
theorem c8_build_deterministic (q r : Query)
    (e1 : q.ReferenceName = r.ReferenceName) (e2 : q.ReferenceBases = r.ReferenceBases)
    (e3 : q.AlternateBases = r.AlternateBases) (e4 : q.Start = r.Start)
    (e5 : q.End = r.End) (e6 : q.StartMin = r.StartMin) (e7 : q.StartMax = r.StartMax)
    (e8 : q.EndMin = r.EndMin) (e9 : q.EndMax = r.EndMax) :
    ValidateInput q = ValidateInput r
    ∧ whereClauseList q = whereClauseList r
    ∧ whereClause q = whereClause r := by
  have h : q = r := by
    cases q
    cases r
    simp only [Query.mk.injEq]
    exact ⟨e1, e2, e3, e4, e5, e6, e7, e8, e9⟩
  subst h
  exact ⟨rfl, rfl, rfl⟩

/-- Witness for C8: the determinism theorem applied to Scenario A twice. -/
theorem c8_build_deterministic_witness :
    ValidateInput scenarioA = ValidateInput scenarioA
    ∧ whereClauseList scenarioA = whereClauseList scenarioA
    ∧ whereClause scenarioA = whereClause scenarioA :=
  c8_build_deterministic scenarioA scenarioA rfl rfl rfl rfl rfl rfl rfl rfl rfl

/-- Claim C9: start of zero with non-empty reference bases and unset end
is a valid precise query (zero is not treated as absent) and the
coordinate clause list is exactly the start-equals-zero constraint. -/
theorem c9_zero_start_kept (q : Query) (hb : q.ReferenceBases ≠ "")
    (hs : q.Start = some 0) (he : q.End = none) (hm : q.StartMin = none) :
    validateCoordinates q = none ∧ bqCoordinatesToWhereClause q = ["v.start = 0"] := by
  constructor
  · simp [validateCoordinates, precisePosition, imprecisePosition, hs, he, hm, hb]
  · simp only [bqCoordinatesToWhereClause, hs, he, hm]
    rfl

/-- Witness for C9: the concrete zero-start query. -/
theorem c9_zero_start_kept_witness :
    validateCoordinates ⟨"1", "A", "", some 0, none, none, none, none, none⟩ = none
    ∧ bqCoordinatesToWhereClause ⟨"1", "A", "", some 0, none, none, none, none, none⟩
      = ["v.start = 0"] :=
  c9_zero_start_kept ⟨"1", "A", "", some 0, none, none, none, none, none⟩
    (by decide) rfl rfl rfl

/-- Claim C10: a query passing the field checks whose only coordinate field
is End validates with no error and contributes no coordinate clause: the
supplied End value is silently ignored. -/
theorem c10_end_alone_ignored (q : Query)
    (hn : q.ReferenceName ≠ "") (hb : basesRegexMatch q.ReferenceBases = true)
    (halt : q.AlternateBases = "" ∨ basesRegexMatch q.AlternateBases = true)
    (h1 : q.Start = none) (h2 : q.End.isSome = true) (h3 : q.StartMin = none)
    (h4 : q.StartMax = none) (h5 : q.EndMin = none) (h6 : q.EndMax = none) :
    ValidateInput q = none ∧ bqCoordinatesToWhereClause q = [] := by
  have hbne : q.ReferenceBases ≠ "" := by
    intro h
    rw [h] at hb
    exact absurd hb (by decide)
  have hvc : validateCoordinates q = none := by
    simp [validateCoordinates, precisePosition, imprecisePosition, h1, h3, h4, h5, h6]
  constructor
  · rcases halt with h | h
    · simp [ValidateInput, hn, hbne, hb, h, hvc]
    · simp [ValidateInput, hn, hbne, hb, h, hvc]
  · simp [bqCoordinatesToWhereClause, h1, h3, h4, h5, h6]

/-- Witness for C10: end = 7 with everything else unset is accepted and
yields no coordinate clause. -/
theorem c10_end_alone_ignored_witness :
    ValidateInput ⟨"1", "A", "G", none, some 7, none, none, none, none⟩ = none
    ∧ bqCoordinatesToWhereClause ⟨"1", "A", "G", none, some 7, none, none, none, none⟩ = [] :=
  c10_end_alone_ignored ⟨"1", "A", "G", none, some 7, none, none, none, none⟩
    (by decide) rfl (Or.inr rfl) rfl rfl rfl rfl rfl rfl
